import Mathlib

/-!
Shallow embedding of `lib/database.py` from the counterblockd repository:
the versioned state store and rollback engine (`rollback`), the
bootstrap/reset operation (`reset_db_state`) and the time-range resolver
(`get_block_indexes_for_dates`).

MongoDB collections are modelled as Lean lists of records; `find_one` with a
sort option is modelled as selecting a best element of the list; `remove`
with a `$gt` filter is modelled as `List.filter` with the complementary
predicate.  Python exceptions (`assert`, `raise Exception`,
`TypeError` from indexing `None`) are modelled with `Except` / `Option`
results.  The extension hook fan-out (`RollbackProcessor.run_active_functions`)
is external to this repository and is modelled as a no-op.
-/

/-- A document of the `processed_blocks` collection (`block_index`, `block_time`). -/
structure ProcessedBlock where
  block_index : Int
  block_time : Int
deriving Repr, DecidableEq

/-- A generic block-scoped document (balance change, trade, market-cap snapshot,
transaction statistic): it carries the `block_index` it was produced at plus an
opaque payload standing for the remaining fields of the document. -/
structure BlockScopedDoc where
  block_index : Int
  payload : Int
deriving Repr, DecidableEq

/-- A document of a collection whose contents this core never inspects
(preferences, chat history, feeds, ...): an opaque payload. -/
structure Doc where
  payload : Int
deriving Repr, DecidableEq

/-- One version of a tracked asset: the fields written by `reset_db_state`
(lines 173-181 of `database.py`), with `_at_block` rendered as `at_block`. -/
structure AssetVersion where
  asset : String
  owner : Option String
  divisible : Bool
  locked : Bool
  total_issued : Option Int
  at_block : Int
deriving Repr, DecidableEq

/-- A `tracked_assets` document: the current version (whose fields are stored
flat in the mongo document) together with its `_history` list of prior
versions, ordered oldest first (new versions are appended at the end). -/
structure TrackedAsset where
  cur : AssetVersion
  history : List AssetVersion
deriving Repr, DecidableEq

/-- The `app_config` singleton document written by `reset_db_state`
(lines 159-166 of `database.py`). -/
structure AppConfig where
  db_version : Int
  running_testnet : Bool
  counterpartyd_db_version_major : Option Int
  counterpartyd_db_version_minor : Option Int
  counterpartyd_running_testnet : Option Bool
  last_block_assets_compiled : Int
deriving Repr, DecidableEq

/-- The collections of the mongo database that `lib/database.py` touches or
promises not to touch.  `pair_market_info` is the literal collection name
dropped at line 151. -/
structure Db where
  processed_blocks : List ProcessedBlock
  balance_changes : List BlockScopedDoc
  trades : List BlockScopedDoc
  asset_marketcap_history : List BlockScopedDoc
  transaction_stats : List BlockScopedDoc
  tracked_assets : List TrackedAsset
  asset_market_info : List Doc
  pair_market_info : List Doc
  btc_open_orders : List Doc
  asset_extended_info : List Doc
  feeds : List Doc
  wallet_stats : List Doc
  app_config : List AppConfig
  preferences : List Doc
  login_history : List Doc
  chat_handles : List Doc
  chat_history : List Doc
deriving Repr, DecidableEq

/-- The process-wide counters held in `config.state`.  Only the
`block_index` field of `config.state['my_latest_block']` is ever read or
written by this module, so the counter is modelled as that index. -/
structure ProcState where
  my_latest_block_index : Int
  last_message_index : Int
  caught_up : Bool
deriving Repr, DecidableEq

/-- The whole mutable state reachable from `lib/database.py`: the mongo
database, `config.state`, and `cache.blockinfo_cache` (a block-keyed map,
modelled as an association list). -/
structure SysState where
  db : Db
  state : ProcState
  blockinfo_cache : List (Int × Int)
deriving Repr, DecidableEq

/-- The configuration constants read by `lib/database.py`. -/
structure Config where
  BLOCK_FIRST : Int
  DB_VERSION : Int
  TESTNET : Bool
  XCP : String
  BTC : String
  LATEST_BLOCK_INIT : ProcessedBlock
deriving Repr, DecidableEq

/-- The two ways `rollback` fails before mutating anything: the `assert`
at line 197 (target not a positive integer) and the `raise Exception` at
line 199 (target block not recorded). -/
inductive RollbackError where
  | assertionError
  | blockNotFound (idx : Int)
deriving Repr, DecidableEq

/-- The `while len(asset['_history']): prev_ver = asset['_history'].pop(); if
prev_ver['_at_block'] <= max_block_index: break` loop (lines 215-218).  The
argument list is the history read newest first (Python pops from the end), and
the returned pair is (`prev_ver` at loop exit, remaining history newest
first).  `prev_ver` is `none` exactly when the loop never ran. -/
def popLoop (t : Int) : List AssetVersion → Option AssetVersion × List AssetVersion
  | [] => (none, [])
  | v :: rest =>
    if v.at_block ≤ t then (some v, rest)
    else if rest.isEmpty then (some v, rest)
    else popLoop t rest

/-- Lines 214-229 of `database.py` for a single asset taken from the
`assets_to_prune` cursor: `none` means the asset document is removed from
`tracked_assets`, `some a` means the document is now `a` (either untouched,
or `save`d back with the restored previous version as current and the
remaining history). -/
def rollbackAsset (t : Int) (a : TrackedAsset) : Option TrackedAsset :=
  match popLoop t a.history.reverse with
  | (none, _) => some a
  | (some pv, rest) =>
    if pv.at_block > t then none
    else some { cur := pv, history := rest.reverse }

/-- The per-document effect of the pruning pass: the cursor
`tracked_assets.find({'_at_block': {"$gt": max_block_index}})` selects exactly
the documents with `at_block > t`; every other document is untouched. -/
def pruneStep (t : Int) (a : TrackedAsset) : Option TrackedAsset :=
  if a.cur.at_block > t then rollbackAsset t a else some a

/-- The whole `for asset in assets_to_prune` loop (lines 210-229).  Each
iteration touches only the one asset document it is visiting (removal and
`save` are keyed by the unique `asset` name), so the loop is the pointwise
image under `pruneStep`. -/
def rollbackAssets (t : Int) (l : List TrackedAsset) : List TrackedAsset :=
  l.filterMap (pruneStep t)

/-- The five `remove({"block_index": {"$gt": max_block_index}})` calls
(lines 202-206): each collection keeps exactly the documents whose
`block_index` does not match the `$gt` filter. -/
def purgeDb (t : Int) (db : Db) : Db :=
  { db with
    processed_blocks := db.processed_blocks.filter (fun b => !(decide (b.block_index > t))),
    balance_changes := db.balance_changes.filter (fun r => !(decide (r.block_index > t))),
    trades := db.trades.filter (fun r => !(decide (r.block_index > t))),
    asset_marketcap_history :=
      db.asset_marketcap_history.filter (fun r => !(decide (r.block_index > t))),
    transaction_stats := db.transaction_stats.filter (fun r => !(decide (r.block_index > t))) }

/-- The database effect of a successful `rollback`: purge the block-scoped
collections, then rewind the tracked assets. -/
def rollbackDb (t : Int) (db : Db) : Db :=
  let db2 := purgeDb t db
  { db2 with tracked_assets := rollbackAssets t db2.tracked_assets }

/-- `rollback(max_block_index)` (lines 190-238 of `database.py`).  The
`assert` and the existence check run before any write; on success the
block-scoped collections are purged, the tracked assets rewound, the
extension hooks signalled (external, modelled as a no-op),
`config.state['last_message_index']` reset to `-1`, `config.state['caught_up']`
cleared, `cache.blockinfo_cache` cleared, and the block record at the target
index (re-queried after the purge, falling back to `config.LATEST_BLOCK_INIT`)
is returned. -/
def rollback (cfg : Config) (max_block_index : Int) (s : SysState) :
    Except RollbackError (SysState × ProcessedBlock) :=
  if max_block_index > 0 then
    match s.db.processed_blocks.find? (fun b => b.block_index == max_block_index) with
    | none => .error (.blockNotFound max_block_index)
    | some _ =>
      let db := rollbackDb max_block_index s.db
      .ok ({ db := db,
             state := { s.state with last_message_index := -1, caught_up := false },
             blockinfo_cache := [] },
           (db.processed_blocks.find?
               (fun b => b.block_index == max_block_index)).getD cfg.LATEST_BLOCK_INIT)
  else .error .assertionError

/-- `app_config.update({}, doc, upsert=True)` (line 159): replace the first
document of the collection with `doc`, inserting it when the collection is
empty. -/
def upsertSingle (doc : AppConfig) : List AppConfig → List AppConfig
  | [] => [doc]
  | _ :: rest => doc :: rest

/-- The genesis tracked-asset document built at lines 173-181. -/
def genesis_asset (cfg : Config) (name : String) : TrackedAsset :=
  { cur := { asset := name, owner := none, divisible := true, locked := false,
             total_issued := none, at_block := cfg.BLOCK_FIRST },
    history := [] }

/-- `reset_db_state()` (lines 143-188 of `database.py`): drop the listed
collections, upsert the `app_config` document, insert the two genesis assets
(`config.XCP` then `config.BTC`), reset `my_latest_block` to index `0` and
`last_message_index` to `-1`, and return the `app_config` document read back
with `find()[0]` (the upsert guarantees the collection is nonempty and the
new document is first). -/
def reset_db_state (cfg : Config) (s : SysState) : SysState × AppConfig :=
  let db := { s.db with
    processed_blocks := ([] : List ProcessedBlock),
    tracked_assets := ([] : List TrackedAsset),
    trades := ([] : List BlockScopedDoc),
    balance_changes := ([] : List BlockScopedDoc),
    asset_market_info := ([] : List Doc),
    asset_marketcap_history := ([] : List BlockScopedDoc),
    pair_market_info := ([] : List Doc),
    btc_open_orders := ([] : List Doc),
    asset_extended_info := ([] : List Doc),
    transaction_stats := ([] : List BlockScopedDoc),
    feeds := ([] : List Doc),
    wallet_stats := ([] : List Doc) }
  let newAppConfig : AppConfig :=
    { db_version := cfg.DB_VERSION, running_testnet := cfg.TESTNET,
      counterpartyd_db_version_major := none, counterpartyd_db_version_minor := none,
      counterpartyd_running_testnet := none, last_block_assets_compiled := cfg.BLOCK_FIRST }
  let db := { db with app_config := upsertSingle newAppConfig db.app_config }
  let app_config := db.app_config.headD newAppConfig
  let db := { db with tracked_assets := db.tracked_assets ++ [genesis_asset cfg cfg.XCP] }
  let db := { db with tracked_assets := db.tracked_assets ++ [genesis_asset cfg cfg.BTC] }
  ({ s with db := db,
            state := { s.state with my_latest_block_index := 0, last_message_index := -1 } },
   app_config)

/-- `find_one` with a sort option: return a best element of the list, where
`pred` is the query filter and `better a b` says `a` sorts strictly before
`b`.  Among equally-sorted documents mongo's choice is unspecified; this model
keeps the later document of the list. -/
def find_one_best (pred : ProcessedBlock → Bool)
    (better : ProcessedBlock → ProcessedBlock → Bool) :
    List ProcessedBlock → Option ProcessedBlock
  | [] => none
  | b :: rest =>
    match find_one_best pred better rest with
    | none => if pred b then some b else none
    | some c => if pred b && better b c then some b else some c

/-- Lines 121-125 of `database.py`: the `start_block_index` computation.
`find_one({"block_time": {"$lte": start_dt}}, sort=[("block_time", DESCENDING)])`
selects a block of greatest `block_time` among those with `block_time ≤
start_dt`; `config.BLOCK_FIRST` is the fallback both when `start_dt` is
absent and when no block matches. -/
def resolved_start (cfg : Config) (s : SysState) (start_dt : Option Int) : Int :=
  match start_dt with
  | none => cfg.BLOCK_FIRST
  | some sd =>
    match find_one_best (fun b => decide (b.block_time ≤ sd))
        (fun a b => decide (b.block_time < a.block_time)) s.db.processed_blocks with
    | none => cfg.BLOCK_FIRST
    | some b => b.block_index

/-- Lines 127-134 of `database.py`: the `end_block_index` computation.  The
result is `none` for the one path that raises in Python: `end_dt` given, no
block with `block_time ≥ end_dt`, and the collection empty, so that
`find_one(sort=[("block_index", DESCENDING)])` returns `None` and
subscripting it with `['block_index']` raises `TypeError`. -/
def resolved_end (s : SysState) (end_dt : Option Int) : Option Int :=
  match end_dt with
  | none => some s.state.my_latest_block_index
  | some ed =>
    match find_one_best (fun b => decide (ed ≤ b.block_time))
        (fun a b => decide (a.block_time < b.block_time)) s.db.processed_blocks with
    | some b => some b.block_index
    | none =>
      match find_one_best (fun _ => true)
          (fun a b => decide (b.block_index < a.block_index)) s.db.processed_blocks with
      | some b => some b.block_index
      | none => none

/-- `get_block_indexes_for_dates(start_dt, end_dt)` (lines 118-135 of
`database.py`): the pair of the two resolved indexes, `none` when the end
computation raises. -/
def get_block_indexes_for_dates (cfg : Config) (s : SysState)
    (start_dt end_dt : Option Int) : Option (Int × Int) :=
  match resolved_end s end_dt with
  | none => none
  | some e => some (resolved_start cfg s start_dt, e)

/-! ### Concrete states used to exercise the model -/

/-- A small concrete configuration. -/
def cfg0 : Config :=
  { BLOCK_FIRST := 1, DB_VERSION := 7, TESTNET := false, XCP := "XCP", BTC := "BTC",
    LATEST_BLOCK_INIT := { block_index := 0, block_time := 0 } }

/-- A database with every collection empty. -/
def emptyDb : Db :=
  { processed_blocks := [], balance_changes := [], trades := [],
    asset_marketcap_history := [], transaction_stats := [], tracked_assets := [],
    asset_market_info := [], pair_market_info := [], btc_open_orders := [],
    asset_extended_info := [], feeds := [], wallet_stats := [], app_config := [],
    preferences := [], login_history := [], chat_handles := [], chat_history := [] }

/-- Process counters at an arbitrary mid-run value. -/
def st0 : ProcState := { my_latest_block_index := 0, last_message_index := 7, caught_up := true }

/-- A state with an empty database: no block record exists at all. -/
def sEmpty : SysState := { db := emptyDb, state := st0, blockinfo_cache := [(3, 3)] }

/-- Two processed blocks and a few block-scoped documents on each side of
block 1. -/
def s2 : SysState :=
  { db := { emptyDb with
              processed_blocks := [⟨1, 5⟩, ⟨2, 6⟩],
              balance_changes := [⟨1, 0⟩, ⟨2, 1⟩],
              trades := [⟨2, 2⟩],
              asset_marketcap_history := [⟨1, 3⟩],
              transaction_stats := [⟨2, 4⟩] },
    state := st0, blockinfo_cache := [(3, 3)] }

/-- The state produced by `rollback cfg0 1 s2`. -/
def s2r : SysState :=
  { db := { emptyDb with
              processed_blocks := [⟨1, 5⟩],
              balance_changes := [⟨1, 0⟩],
              asset_marketcap_history := [⟨1, 3⟩] },
    state := { my_latest_block_index := 0, last_message_index := -1, caught_up := false },
    blockinfo_cache := [] }

/-- An asset created at block 50 with no prior versions. -/
def assetB : TrackedAsset :=
  { cur := { asset := "B", owner := none, divisible := true, locked := false,
             total_issued := some 1, at_block := 50 }, history := [] }

/-- A store holding block 10 and the young asset `assetB`. -/
def s3 : SysState :=
  { db := { emptyDb with processed_blocks := [⟨10, 100⟩], tracked_assets := [assetB] },
    state := st0, blockinfo_cache := [] }

/-- The state produced by `rollback cfg0 10 s3`: `assetB` is still there. -/
def s3r : SysState :=
  { db := { emptyDb with processed_blocks := [⟨10, 100⟩], tracked_assets := [assetB] },
    state := { my_latest_block_index := 0, last_message_index := -1, caught_up := false },
    blockinfo_cache := [] }

/-- The older version of asset `A` from the specification scenario. -/
def verOld : AssetVersion :=
  { asset := "A", owner := none, divisible := true, locked := false,
    total_issued := some 5, at_block := 100 }

/-- The newer version of asset `A` from the specification scenario. -/
def verNew : AssetVersion :=
  { asset := "A", owner := none, divisible := true, locked := false,
    total_issued := some 10, at_block := 300 }

/-- A store with two processed blocks at times 10 and 20 whose counter and
indexes are consistent. -/
def s6 : SysState :=
  { db := { emptyDb with processed_blocks := [⟨1, 10⟩, ⟨2, 20⟩] },
    state := { my_latest_block_index := 2, last_message_index := 0, caught_up := true },
    blockinfo_cache := [] }

/-- A store with user data in the collections the core promises not to
touch. -/
def s9 : SysState :=
  { db := { emptyDb with
              feeds := [Doc.mk 1], preferences := [Doc.mk 2], login_history := [Doc.mk 4],
              chat_handles := [Doc.mk 3], chat_history := [Doc.mk 5] },
    state := st0, blockinfo_cache := [] }

/-! ### Helper lemmas -/

/-- `popLoop` leaves `prev_ver = None` only when the history was empty. -/
theorem popLoop_fst_none {t : Int} :
    ∀ {l : List AssetVersion}, (popLoop t l).1 = none → l = []
  | [], _ => rfl
  | v :: rest, h => by
    unfold popLoop at h
    by_cases hv : v.at_block ≤ t
    · rw [if_pos hv] at h
      exact absurd h (by simp)
    · rw [if_neg hv] at h
      by_cases hr : rest.isEmpty
      · rw [if_pos hr] at h
        exact absurd h (by simp)
      · rw [if_neg hr] at h
        have := popLoop_fst_none h
        subst this
        exact absurd rfl hr

/-- Running `popLoop` over a history whose final segment is all newer than the
target pops that segment and stops at the first entry at or before the
target. -/
theorem popLoop_append (t : Int) (e : AssetVersion) (r : List AssetVersion) :
    ∀ (l : List AssetVersion), (∀ x ∈ l, t < x.at_block) → e.at_block ≤ t →
      popLoop t (l ++ e :: r) = (some e, r)
  | [], _, he => by simp [popLoop, he]
  | x :: l, hl, he => by
    have hx : ¬ x.at_block ≤ t := not_le.mpr (hl x (List.mem_cons_self x l))
    have hne : (l ++ e :: r).isEmpty = false := by simp
    rw [List.cons_append]
    unfold popLoop
    rw [if_neg hx, hne]
    simp only [Bool.false_eq_true, if_false]
    exact popLoop_append t e r l (fun y hy => hl y (List.mem_cons_of_mem x hy)) he

/-- Any asset document surviving the pruning pass is either already valid at
the target block or has an empty history. -/
theorem pruneStep_spec {t : Int} {a a' : TrackedAsset} (h : pruneStep t a = some a') :
    a'.cur.at_block ≤ t ∨ a'.history = [] := by
  unfold pruneStep at h
  by_cases hc : a.cur.at_block > t
  · rw [if_pos hc] at h
    rcases hp : popLoop t a.history.reverse with ⟨pv, rest⟩
    cases pv with
    | none =>
      have hfst : (popLoop t a.history.reverse).1 = none := by rw [hp]
      have hhist : a.history = [] := by simpa using popLoop_fst_none hfst
      simp only [rollbackAsset, hp] at h
      cases h
      exact Or.inr hhist
    | some v =>
      simp only [rollbackAsset, hp] at h
      by_cases hv : v.at_block > t
      · rw [if_pos hv] at h
        exact absurd h (by simp)
      · rw [if_neg hv] at h
        cases h
        exact Or.inl (not_lt.mp hv)
  · rw [if_neg hc] at h
    cases h
    exact Or.inl (not_lt.mp hc)

/-- A document that is already valid at the target block, or has an empty
history, is a fixed point of the pruning pass. -/
theorem pruneStep_fix {t : Int} {a : TrackedAsset}
    (h : a.cur.at_block ≤ t ∨ a.history = []) : pruneStep t a = some a := by
  unfold pruneStep
  by_cases hc : a.cur.at_block > t
  · rw [if_pos hc]
    have hh : a.history = [] := h.resolve_left (not_le.mpr hc)
    unfold rollbackAsset
    rw [hh]
    rfl
  · rw [if_neg hc]

/-- `filterMap` over a list of fixed points is the identity. -/
theorem filterMap_fix {α : Type} {f : α → Option α} :
    ∀ {l : List α}, (∀ a ∈ l, f a = some a) → l.filterMap f = l
  | [], _ => rfl
  | x :: l, h => by
    rw [List.filterMap_cons, h x (List.mem_cons_self x l),
        filterMap_fix (fun a ha => h a (List.mem_cons_of_mem x ha))]

/-- The tracked-asset pruning pass is idempotent. -/
theorem rollbackAssets_idem (t : Int) (l : List TrackedAsset) :
    rollbackAssets t (rollbackAssets t l) = rollbackAssets t l := by
  unfold rollbackAssets
  apply filterMap_fix
  intro a ha
  rw [List.mem_filterMap] at ha
  obtain ⟨a0, _, hstep⟩ := ha
  exact pruneStep_fix (pruneStep_spec hstep)

/-- Filtering twice with the same predicate filters once. -/
theorem filter_self_idem {α : Type} (p : α → Bool) :
    ∀ (l : List α), (l.filter p).filter p = l.filter p
  | [] => rfl
  | x :: l => by
    by_cases hp : p x
    · rw [List.filter_cons_of_pos hp, List.filter_cons_of_pos hp, filter_self_idem p l]
    · rw [List.filter_cons_of_neg hp, filter_self_idem p l]

/-- The whole database effect of a rollback is idempotent. -/
theorem rollbackDb_idem (t : Int) (db : Db) :
    rollbackDb t (rollbackDb t db) = rollbackDb t db := by
  cases db
  simp [rollbackDb, purgeDb, filter_self_idem, rollbackAssets_idem]

/-- `find?` commutes with a `filter` that keeps everything the query
matches. -/
theorem find?_filter_of_imp {α : Type} (p q : α → Bool)
    (h : ∀ x, p x = true → q x = true) :
    ∀ (l : List α), (l.filter q).find? p = l.find? p
  | [] => rfl
  | x :: l => by
    by_cases hq : q x
    · rw [List.filter_cons_of_pos hq]
      by_cases hp : p x
      · rw [List.find?_cons_of_pos _ hp, List.find?_cons_of_pos _ hp]
      · rw [List.find?_cons_of_neg _ hp, List.find?_cons_of_neg _ hp,
            find?_filter_of_imp p q h l]
    · rw [List.filter_cons_of_neg hq]
      have hp : ¬ p x = true := fun hp => hq (h x hp)
      rw [List.find?_cons_of_neg _ hp, find?_filter_of_imp p q h l]

/-- A block returned by a sorted `find_one` belongs to the collection and
matches the query. -/
theorem find_one_best_some {pred : ProcessedBlock → Bool}
    {better : ProcessedBlock → ProcessedBlock → Bool} :
    ∀ {l : List ProcessedBlock} {b : ProcessedBlock},
      find_one_best pred better l = some b → b ∈ l ∧ pred b = true
  | [], b, h => by exact absurd h (by simp [find_one_best])
  | x :: rest, b, h => by
    unfold find_one_best at h
    cases hr : find_one_best pred better rest with
    | none =>
      simp only [hr] at h
      by_cases hp : pred x
      · rw [if_pos hp] at h
        cases h
        exact ⟨List.mem_cons_self x rest, hp⟩
      · rw [if_neg hp] at h
        exact absurd h (by simp)
    | some c =>
      simp only [hr] at h
      by_cases hx : pred x && better x c
      · rw [if_pos hx] at h
        cases h
        exact ⟨List.mem_cons_self x rest, (Bool.and_eq_true _ _ |>.mp hx).1⟩
      · rw [if_neg hx] at h
        cases h
        have := find_one_best_some hr
        exact ⟨List.mem_cons_of_mem x this.1, this.2⟩

/-- A sorted `find_one` that returns nothing had no matching block. -/
theorem find_one_best_none {pred : ProcessedBlock → Bool}
    {better : ProcessedBlock → ProcessedBlock → Bool} :
    ∀ {l : List ProcessedBlock}, find_one_best pred better l = none →
      ∀ x ∈ l, pred x = false
  | [], _, x, hx => absurd hx (List.not_mem_nil x)
  | y :: rest, h, x, hx => by
    unfold find_one_best at h
    cases hr : find_one_best pred better rest with
    | none =>
      simp only [hr] at h
      by_cases hp : pred y
      · rw [if_pos hp] at h
        exact absurd h (by simp)
      · rw [if_neg hp] at h
        rcases List.mem_cons.mp hx with hxy | hxr
        · subst hxy
          exact Bool.eq_false_iff.mpr hp
        · exact find_one_best_none hr x hxr
    | some c =>
      simp only [hr] at h
      by_cases hc : pred y && better y c <;> simp [hc] at h

/-- If some block matches the query, a sorted `find_one` returns a block. -/
theorem find_one_best_isSome {pred : ProcessedBlock → Bool}
    {better : ProcessedBlock → ProcessedBlock → Bool}
    {l : List ProcessedBlock} {x : ProcessedBlock} (hx : x ∈ l) (hp : pred x = true) :
    ∃ b, find_one_best pred better l = some b := by
  cases h : find_one_best pred better l with
  | none => exact absurd (find_one_best_none h x hx) (by simp [hp])
  | some b => exact ⟨b, rfl⟩

/-- The block returned by a sorted `find_one` is best for the sort order
among all blocks matching the query, provided the order is irreflexive and
transitive. -/
theorem find_one_best_not_better {pred : ProcessedBlock → Bool}
    {better : ProcessedBlock → ProcessedBlock → Bool}
    (hirr : ∀ x, better x x = false)
    (htrans : ∀ x y z, better y z = true → better x y = true → better x z = true) :
    ∀ {l : List ProcessedBlock} {b : ProcessedBlock},
      find_one_best pred better l = some b →
      ∀ x ∈ l, pred x = true → better x b = false
  | [], b, h, x, hx, _ => absurd hx (List.not_mem_nil x)
  | y :: rest, b, h, x, hx, hpx => by
    unfold find_one_best at h
    cases hr : find_one_best pred better rest with
    | none =>
      simp only [hr] at h
      by_cases hp : pred y
      · rw [if_pos hp] at h
        cases h
        rcases List.mem_cons.mp hx with hxy | hxr
        · subst hxy
          exact hirr x
        · exact absurd hpx (by simp [find_one_best_none hr x hxr])
      · rw [if_neg hp] at h
        exact absurd h (by simp)
    | some c =>
      simp only [hr] at h
      by_cases hyc : pred y && better y c
      · rw [if_pos hyc] at h
        cases h
        rcases List.mem_cons.mp hx with hxy | hxr
        · subst hxy
          exact hirr x
        · have hxc := find_one_best_not_better hirr htrans hr x hxr hpx
          by_cases hxb : better x y
          · exact absurd (htrans x y c (Bool.and_eq_true _ _ |>.mp hyc).2 hxb)
              (by simp [hxc])
          · exact Bool.eq_false_iff.mpr hxb
      · rw [if_neg hyc] at h
        cases h
        rcases List.mem_cons.mp hx with hxy | hxr
        · subst hxy
          by_cases hbc : better x b
          · exact absurd (by simp [hpx, hbc]) hyc
          · exact Bool.eq_false_iff.mpr hbc
        · exact find_one_best_not_better hirr htrans hr x hxr hpx

/-- Keeping what the `$gt` filter does not match is keeping the records at or
below the target. -/
theorem keep_not_gt (t x : Int) : (!(decide (x > t))) = decide (x ≤ t) := by
  by_cases hx : x ≤ t
  · simp [hx, not_lt.mpr hx]
  · simp [hx, lt_of_not_le hx]

/-! ### Claims -/

/-- C1: for every target `t`, if `t` is not a positive integer or no block
record with `block_index = t` exists in the store, then `rollback t` fails
with a precondition error (`AssertionError` or missing-block `Exception`);
the error is raised before any write, so no collection, counter or cache is
mutated — in the model the call returns `Except.error` and produces no
successor state. -/
theorem rollback_precondition_error (cfg : Config) (t : Int) (s : SysState)
    (h : ¬ 0 < t ∨ s.db.processed_blocks.find? (fun b => b.block_index == t) = none) :
    ∃ e, rollback cfg t s = Except.error e := by
  by_cases ht : t > 0
  · rcases h with h | h
    · exact absurd ht h
    · exact ⟨.blockNotFound t, by rw [rollback, if_pos ht, h]⟩
  · exact ⟨.assertionError, by rw [rollback, if_neg ht]⟩

/-- Witness for C1: rolling back to block 500 by way of block 5 on a store
with no processed blocks at all fails with an error. -/
theorem rollback_precondition_error_witness :
    (sEmpty.db.processed_blocks.find? (fun b => b.block_index == 5) = none) ∧
    ∃ e, rollback cfg0 5 sEmpty = Except.error e :=
  ⟨by decide, rollback_precondition_error cfg0 5 sEmpty (Or.inr (by decide))⟩

/-- C2: after a successful `rollback t`, each of the five block-scoped
collections (processed blocks, balance changes, trades, market-cap history,
transaction statistics) contains no record with `block_index > t`, and is
exactly the original collection restricted to the records with
`block_index ≤ t` (so every record at or below the cut is unchanged, in
order). -/
theorem rollback_purges_block_scoped (cfg : Config) (t : Int) (s : SysState)
    (s' : SysState) (b : ProcessedBlock)
    (h : rollback cfg t s = Except.ok (s', b)) :
    ((∀ r ∈ s'.db.processed_blocks, r.block_index ≤ t) ∧
     (∀ r ∈ s'.db.balance_changes, r.block_index ≤ t) ∧
     (∀ r ∈ s'.db.trades, r.block_index ≤ t) ∧
     (∀ r ∈ s'.db.asset_marketcap_history, r.block_index ≤ t) ∧
     (∀ r ∈ s'.db.transaction_stats, r.block_index ≤ t)) ∧
    (s'.db.processed_blocks
        = s.db.processed_blocks.filter (fun r => decide (r.block_index ≤ t)) ∧
     s'.db.balance_changes
        = s.db.balance_changes.filter (fun r => decide (r.block_index ≤ t)) ∧
     s'.db.trades = s.db.trades.filter (fun r => decide (r.block_index ≤ t)) ∧
     s'.db.asset_marketcap_history
        = s.db.asset_marketcap_history.filter (fun r => decide (r.block_index ≤ t)) ∧
     s'.db.transaction_stats
        = s.db.transaction_stats.filter (fun r => decide (r.block_index ≤ t))) := by
  by_cases ht : t > 0
  case neg => rw [rollback, if_neg ht] at h; exact absurd h (by simp)
  case pos =>
  rw [rollback, if_pos ht] at h
  cases hfind : s.db.processed_blocks.find? (fun b => b.block_index == t) with
  | none => rw [hfind] at h; exact absurd h (by simp)
  | some blk0 =>
    rw [hfind] at h
    simp only [Except.ok.injEq, Prod.mk.injEq] at h
    obtain ⟨hs', _⟩ := h
    subst hs'
    constructor
    · refine ⟨?_, ?_, ?_, ?_, ?_⟩ <;>
      · intro r hr
        have := (List.mem_filter.mp hr).2
        simpa [keep_not_gt] using this
    · refine ⟨?_, ?_, ?_, ?_, ?_⟩ <;>
      · show List.filter _ _ = List.filter _ _
        exact List.filter_congr (fun r _ => keep_not_gt t r.block_index)

/-- Witness for C2: rolling `s2` back to block 1 keeps exactly the records at
or below block 1 in every block-scoped collection. -/
theorem rollback_purges_block_scoped_witness :
    ((∀ r ∈ s2r.db.processed_blocks, r.block_index ≤ 1) ∧
     (∀ r ∈ s2r.db.balance_changes, r.block_index ≤ 1) ∧
     (∀ r ∈ s2r.db.trades, r.block_index ≤ 1) ∧
     (∀ r ∈ s2r.db.asset_marketcap_history, r.block_index ≤ 1) ∧
     (∀ r ∈ s2r.db.transaction_stats, r.block_index ≤ 1)) ∧
    (s2r.db.processed_blocks
        = s2.db.processed_blocks.filter (fun r => decide (r.block_index ≤ 1)) ∧
     s2r.db.balance_changes
        = s2.db.balance_changes.filter (fun r => decide (r.block_index ≤ 1)) ∧
     s2r.db.trades = s2.db.trades.filter (fun r => decide (r.block_index ≤ 1)) ∧
     s2r.db.asset_marketcap_history
        = s2.db.asset_marketcap_history.filter (fun r => decide (r.block_index ≤ 1)) ∧
     s2r.db.transaction_stats
        = s2.db.transaction_stats.filter (fun r => decide (r.block_index ≤ 1))) :=
  rollback_purges_block_scoped cfg0 1 s2 s2r ⟨1, 5⟩ (by rfl)

/-- C10: a successful `rollback` leaves `config.state['my_latest_block']`
unchanged; among the process-wide counters it modifies only
`last_message_index` (reset to the `-1` sentinel) and the `caught_up` flag
(cleared). -/
theorem rollback_counters_frame (cfg : Config) (t : Int) (s : SysState)
    (s' : SysState) (b : ProcessedBlock)
    (h : rollback cfg t s = Except.ok (s', b)) :
    s'.state.my_latest_block_index = s.state.my_latest_block_index ∧
    s'.state.last_message_index = -1 ∧
    s'.state.caught_up = false := by
  by_cases ht : t > 0
  case neg => rw [rollback, if_neg ht] at h; exact absurd h (by simp)
  case pos =>
  rw [rollback, if_pos ht] at h
  cases hfind : s.db.processed_blocks.find? (fun b => b.block_index == t) with
  | none => rw [hfind] at h; exact absurd h (by simp)
  | some blk0 =>
    rw [hfind] at h
    simp only [Except.ok.injEq, Prod.mk.injEq] at h
    obtain ⟨hs', _⟩ := h
    subst hs'
    exact ⟨rfl, rfl, rfl⟩

/-- Witness for C10: rolling `s2` back to block 1 keeps the latest-block
counter at its old value and touches only the other two counters. -/
theorem rollback_counters_frame_witness :
    s2r.state.my_latest_block_index = s2.state.my_latest_block_index ∧
    s2r.state.last_message_index = -1 ∧
    s2r.state.caught_up = false :=
  rollback_counters_frame cfg0 1 s2 s2r ⟨1, 5⟩ (by rfl)

/-- C3 (code-bug evidence): `assetB` was created at block 50, has no prior
versions, and the store is rolled back to block 10 — so the asset did not
exist at block 10 and the specification requires it to be deleted.  The
`while` loop of lines 215-218 never runs on an empty `_history`, `prev_ver`
stays `None`, the `if prev_ver:` guard at line 219 fails, and the asset
survives the rollback with its current `_at_block` still above the target. -/
theorem rollback_keeps_empty_history_asset :
    rollback cfg0 10 s3 = Except.ok (s3r, ⟨10, 100⟩) ∧
    s3r.db.tracked_assets = [assetB] ∧
    assetB.history = [] ∧
    (10 : Int) < assetB.cur.at_block := by
  exact ⟨by rfl, by rfl, by rfl, by decide⟩

/-- C4: an asset whose current version postdates the target block and whose
history splits as `pre ++ e :: suf`, with `e` at or before the target and
everything in `suf` (the newer entries) after it, is reconstructed with `e`
as the new current version and `pre` (the entries strictly before `e`) as the
whole remaining history. -/
theorem reconstruct_restores_newest_version (t : Int) (a : TrackedAsset)
    (pre suf : List AssetVersion) (e : AssetVersion)
    (hcur : t < a.cur.at_block)
    (hhist : a.history = pre ++ e :: suf)
    (he : e.at_block ≤ t)
    (hsuf : ∀ x ∈ suf, t < x.at_block) :
    pruneStep t a = some { cur := e, history := pre } := by
  have hrev : a.history.reverse = suf.reverse ++ e :: pre.reverse := by
    simp [hhist]
  have hpop : popLoop t a.history.reverse = (some e, pre.reverse) := by
    rw [hrev]
    exact popLoop_append t e pre.reverse suf.reverse
      (fun x hx => hsuf x (List.mem_reverse.mp hx)) he
  unfold pruneStep
  rw [if_pos hcur]
  simp only [rollbackAsset, hpop]
  rw [if_neg (not_lt.mpr he)]
  simp

/-- Witness for C4, the specification's own scenario: history
`[{_at_block:100, qty:5}]`, current `{_at_block:300, qty:10}`, reconstructed
at 200 → current becomes the block-100 version and the history is empty. -/
theorem reconstruct_restores_newest_version_witness :
    pruneStep 200 { cur := verNew, history := [verOld] }
      = some { cur := verOld, history := [] } :=
  reconstruct_restores_newest_version 200 { cur := verNew, history := [verOld] }
    [] [] verOld (by decide) rfl (by decide)
    (fun x hx => absurd hx (List.not_mem_nil x))

/-- C8: after `reset_db_state`, the block-scoped collections are empty, the
tracked-assets collection holds exactly the two genesis assets (`config.XCP`
then `config.BTC`), each current as of the configured first block with empty
history, the application-metadata document records the database schema
version (and is the returned document), the latest-processed-block counter is
`0` and the last-message-index counter is the `-1` sentinel. -/
theorem reset_db_state_spec (cfg : Config) (s : SysState) :
    (reset_db_state cfg s).1.db.processed_blocks = [] ∧
    (reset_db_state cfg s).1.db.balance_changes = [] ∧
    (reset_db_state cfg s).1.db.trades = [] ∧
    (reset_db_state cfg s).1.db.asset_marketcap_history = [] ∧
    (reset_db_state cfg s).1.db.transaction_stats = [] ∧
    (reset_db_state cfg s).1.db.tracked_assets
      = [genesis_asset cfg cfg.XCP, genesis_asset cfg cfg.BTC] ∧
    (genesis_asset cfg cfg.XCP).cur.at_block = cfg.BLOCK_FIRST ∧
    (genesis_asset cfg cfg.XCP).history = [] ∧
    (genesis_asset cfg cfg.BTC).cur.at_block = cfg.BLOCK_FIRST ∧
    (genesis_asset cfg cfg.BTC).history = [] ∧
    (reset_db_state cfg s).1.db.app_config.head? = some (reset_db_state cfg s).2 ∧
    (reset_db_state cfg s).2.db_version = cfg.DB_VERSION ∧
    (reset_db_state cfg s).1.state.my_latest_block_index = 0 ∧
    (reset_db_state cfg s).1.state.last_message_index = -1 := by
  cases hac : s.db.app_config with
  | nil => simp [reset_db_state, genesis_asset, upsertSingle, hac]
  | cons d rest => simp [reset_db_state, genesis_asset, upsertSingle, hac]

/-- C9 (code-bug evidence): `reset_db_state` drops the `feeds` collection
(line 155) although the index-declaration block of the same file (lines
89-114) lists `feeds` among the collections that are *not* purged on a
reparse; the other protected collections (preferences, login history, chat
handles and history) really are left untouched by both core operations. -/
theorem reset_db_state_drops_feeds :
    s9.db.feeds = [Doc.mk 1] ∧
    (reset_db_state cfg0 s9).1.db.feeds = [] ∧
    (reset_db_state cfg0 s9).1.db.preferences = s9.db.preferences ∧
    (reset_db_state cfg0 s9).1.db.login_history = s9.db.login_history ∧
    (reset_db_state cfg0 s9).1.db.chat_handles = s9.db.chat_handles ∧
    (reset_db_state cfg0 s9).1.db.chat_history = s9.db.chat_history :=
  ⟨rfl, rfl, rfl, rfl, rfl, rfl⟩

/-- C5: a successful `rollback t` is idempotent — applied to its own result
state it succeeds again and changes nothing: same store, same counters, same
(cleared) cache, same returned block. -/
theorem rollback_idempotent (cfg : Config) (t : Int) (s : SysState)
    (s' : SysState) (b : ProcessedBlock)
    (h : rollback cfg t s = Except.ok (s', b)) :
    rollback cfg t s' = Except.ok (s', b) := by
  obtain ⟨db, ⟨mli, lmi, cu⟩, cache⟩ := s
  by_cases ht : t > 0
  case neg => rw [rollback, if_neg ht] at h; exact absurd h (by simp)
  case pos =>
  rw [rollback, if_pos ht] at h
  cases hfind : db.processed_blocks.find? (fun x => x.block_index == t) with
  | none => rw [hfind] at h; exact absurd h (by simp)
  | some blk0 =>
    rw [hfind] at h
    simp only [Except.ok.injEq, Prod.mk.injEq] at h
    obtain ⟨hs', hb⟩ := h
    subst hs'
    subst hb
    have hkeep : ∀ x : ProcessedBlock, (x.block_index == t) = true →
        (!(decide (x.block_index > t))) = true := by
      intro x hx
      have hxt : x.block_index = t := by simpa using hx
      simp [hxt]
    have hfind2 : ((rollbackDb t db).processed_blocks.find?
        (fun x => x.block_index == t)) = some blk0 := by
      rw [show (rollbackDb t db).processed_blocks
            = db.processed_blocks.filter (fun x => !(decide (x.block_index > t))) from rfl,
          find?_filter_of_imp _ _ hkeep]
      exact hfind
    rw [rollback, if_pos ht]
    simp only [hfind2, rollbackDb_idem]

/-- Witness for C5: rolling the already-rolled-back state `s2r` back to
block 1 again returns exactly the same state and block. -/
theorem rollback_idempotent_witness :
    rollback cfg0 1 s2r = Except.ok (s2r, ⟨1, 5⟩) :=
  rollback_idempotent cfg0 1 s2 s2r ⟨1, 5⟩ (by rfl)

/-- C6: `get_block_indexes_for_dates` resolves the start of the range to the
configured first block when `start_dt` is absent, and otherwise to the index
of a latest block (greatest `block_time`) among those with `block_time ≤
start_dt`, falling back to the configured first block when none matches; it
resolves the end of the range to the latest-processed-block counter when
`end_dt` is absent, and otherwise to the index of an earliest block (least
`block_time`) among those with `block_time ≥ end_dt`, falling back to a block
of highest known index when none matches. -/
theorem block_range_resolution (cfg : Config) (s : SysState)
    (start_dt end_dt : Option Int) (sb eb : Int)
    (h : get_block_indexes_for_dates cfg s start_dt end_dt = some (sb, eb)) :
    (start_dt = none → sb = cfg.BLOCK_FIRST) ∧
    (∀ sd, start_dt = some sd →
      (∃ blk ∈ s.db.processed_blocks, blk.block_time ≤ sd ∧ sb = blk.block_index ∧
        ∀ b2 ∈ s.db.processed_blocks, b2.block_time ≤ sd → b2.block_time ≤ blk.block_time) ∨
      ((∀ b2 ∈ s.db.processed_blocks, ¬ b2.block_time ≤ sd) ∧ sb = cfg.BLOCK_FIRST)) ∧
    (end_dt = none → eb = s.state.my_latest_block_index) ∧
    (∀ ed, end_dt = some ed →
      (∃ blk ∈ s.db.processed_blocks, ed ≤ blk.block_time ∧ eb = blk.block_index ∧
        ∀ b2 ∈ s.db.processed_blocks, ed ≤ b2.block_time → blk.block_time ≤ b2.block_time) ∨
      ((∀ b2 ∈ s.db.processed_blocks, ¬ ed ≤ b2.block_time) ∧
        ∃ blk ∈ s.db.processed_blocks, eb = blk.block_index ∧
          ∀ b2 ∈ s.db.processed_blocks, b2.block_index ≤ blk.block_index)) := by
  have hse : resolved_end s end_dt = some eb ∧ resolved_start cfg s start_dt = sb := by
    unfold get_block_indexes_for_dates at h
    cases hre : resolved_end s end_dt with
    | none => rw [hre] at h; exact absurd h (by simp)
    | some e =>
      rw [hre] at h
      simp only [Option.some.injEq, Prod.mk.injEq] at h
      exact ⟨by rw [h.2], h.1⟩
  obtain ⟨hre, hrs⟩ := hse
  refine ⟨?_, ?_, ?_, ?_⟩
  · rintro rfl
    simpa [resolved_start] using hrs.symm
  · rintro sd rfl
    unfold resolved_start at hrs
    cases hfs : find_one_best (fun b => decide (b.block_time ≤ sd))
        (fun a b => decide (b.block_time < a.block_time)) s.db.processed_blocks with
    | none =>
      simp only [hfs] at hrs
      refine Or.inr ⟨?_, hrs.symm⟩
      intro b2 hb2
      have := find_one_best_none hfs b2 hb2
      simpa using this
    | some blk =>
      simp only [hfs] at hrs
      have hmem := find_one_best_some hfs
      refine Or.inl ⟨blk, hmem.1, by simpa using hmem.2, hrs.symm, ?_⟩
      intro b2 hb2 hle
      have := find_one_best_not_better (by simp) ?_ hfs b2 hb2 (by simpa using hle)
      · simpa using this
      · intro x y z hyz hxy
        simp only [decide_eq_true_eq] at hyz hxy ⊢
        exact hyz.trans hxy
  · rintro rfl
    simpa [resolved_end] using hre.symm
  · rintro ed rfl
    unfold resolved_end at hre
    cases hfe : find_one_best (fun b => decide (ed ≤ b.block_time))
        (fun a b => decide (a.block_time < b.block_time)) s.db.processed_blocks with
    | some blk =>
      simp only [hfe] at hre
      have hmem := find_one_best_some hfe
      refine Or.inl ⟨blk, hmem.1, by simpa using hmem.2, by simpa using hre.symm, ?_⟩
      intro b2 hb2 hge
      have := find_one_best_not_better (by simp) ?_ hfe b2 hb2 (by simpa using hge)
      · simpa using this
      · intro x y z hyz hxy
        simp only [decide_eq_true_eq] at hyz hxy ⊢
        exact hxy.trans hyz
    | none =>
      simp only [hfe] at hre
      refine Or.inr ⟨?_, ?_⟩
      · intro b2 hb2
        have := find_one_best_none hfe b2 hb2
        simpa using this
      · cases hfb : find_one_best (fun _ => true)
            (fun a b => decide (b.block_index < a.block_index)) s.db.processed_blocks with
        | none => simp only [hfb] at hre; exact absurd hre (by simp)
        | some blk =>
          simp only [hfb] at hre
          have hmem := find_one_best_some hfb
          refine ⟨blk, hmem.1, by simpa using hre.symm, ?_⟩
          intro b2 hb2
          have := find_one_best_not_better (by simp) ?_ hfb b2 hb2 rfl
          · simpa using this
          · intro x y z hyz hxy
            simp only [decide_eq_true_eq] at hyz hxy ⊢
            exact hyz.trans hxy

/-- Witness for C6: on the two-block store `s6`, resolving the range for
times (15, 15) yields block indexes (1, 2), nearest below and nearest
above. -/
theorem block_range_resolution_witness :
    ((some 15 : Option Int) = none → (1 : Int) = cfg0.BLOCK_FIRST) ∧
    (∀ sd, (some 15 : Option Int) = some sd →
      (∃ blk ∈ s6.db.processed_blocks, blk.block_time ≤ sd ∧ (1 : Int) = blk.block_index ∧
        ∀ b2 ∈ s6.db.processed_blocks, b2.block_time ≤ sd → b2.block_time ≤ blk.block_time) ∨
      ((∀ b2 ∈ s6.db.processed_blocks, ¬ b2.block_time ≤ sd) ∧ (1 : Int) = cfg0.BLOCK_FIRST)) ∧
    ((some 15 : Option Int) = none → (2 : Int) = s6.state.my_latest_block_index) ∧
    (∀ ed, (some 15 : Option Int) = some ed →
      (∃ blk ∈ s6.db.processed_blocks, ed ≤ blk.block_time ∧ (2 : Int) = blk.block_index ∧
        ∀ b2 ∈ s6.db.processed_blocks, ed ≤ b2.block_time → blk.block_time ≤ b2.block_time) ∨
      ((∀ b2 ∈ s6.db.processed_blocks, ¬ ed ≤ b2.block_time) ∧
        ∃ blk ∈ s6.db.processed_blocks, (2 : Int) = blk.block_index ∧
          ∀ b2 ∈ s6.db.processed_blocks, b2.block_index ≤ blk.block_index)) :=
  block_range_resolution cfg0 s6 (some 15) (some 15) 1 2 (by rfl)

/-- Counterexample to C7 as stated: on the healthy store `s6` (blocks 1 and 2
at times 10 and 20, both at or after the configured first block 1), asking
for the range of the inverted time window `start_dt = 25`, `end_dt = 5`
returns `(2, 1)` — the start index is strictly greater than the end index. -/
theorem block_range_monotone_cex :
    (∃ blk ∈ s6.db.processed_blocks, cfg0.BLOCK_FIRST ≤ blk.block_index) ∧
    get_block_indexes_for_dates cfg0 s6 (some 25) (some 5) = some (2, 1) ∧
    ¬ ((2 : Int) ≤ 1) :=
  ⟨⟨⟨1, 10⟩, by decide, by decide⟩, by rfl, by decide⟩

/-- C7 (amended): `resolveBlockRange` returns `startBlockIndex ≤
endBlockIndex` whenever the store is nonempty, every recorded block index
lies between the configured first block and the latest-processed-block
counter, recorded block indexes are ordered consistently with block times,
and the requested time window is not inverted (`startTime ≤ endTime` when
both are given). -/
theorem block_range_monotone_amended (cfg : Config) (s : SysState)
    (start_dt end_dt : Option Int)
    (hne : s.db.processed_blocks ≠ [])
    (hlo : ∀ blk ∈ s.db.processed_blocks, cfg.BLOCK_FIRST ≤ blk.block_index)
    (hhi : ∀ blk ∈ s.db.processed_blocks, blk.block_index ≤ s.state.my_latest_block_index)
    (hmono : ∀ b1 ∈ s.db.processed_blocks, ∀ b2 ∈ s.db.processed_blocks,
      b1.block_time ≤ b2.block_time → b1.block_index ≤ b2.block_index)
    (hord : ∀ sd ed, start_dt = some sd → end_dt = some ed → sd ≤ ed) :
    ∃ sb eb, get_block_indexes_for_dates cfg s start_dt end_dt = some (sb, eb) ∧ sb ≤ eb := by
  obtain ⟨x0, hx0⟩ := List.exists_mem_of_ne_nil _ hne
  -- facts about the resolved start index
  have hstart :
      resolved_start cfg s start_dt = cfg.BLOCK_FIRST ∨
      (∃ b1 ∈ s.db.processed_blocks,
        resolved_start cfg s start_dt = b1.block_index ∧
        ∀ sd, start_dt = some sd → b1.block_time ≤ sd) := by
    cases start_dt with
    | none => exact Or.inl rfl
    | some sd =>
      cases hfs : find_one_best (fun b => decide (b.block_time ≤ sd))
          (fun a b => decide (b.block_time < a.block_time)) s.db.processed_blocks with
      | none => exact Or.inl (by simp [resolved_start, hfs])
      | some b1 =>
        have hmem := find_one_best_some hfs
        refine Or.inr ⟨b1, hmem.1, by simp [resolved_start, hfs], ?_⟩
        rintro sd2 h
        cases h
        simpa using hmem.2
  cases end_dt with
  | none =>
    refine ⟨resolved_start cfg s start_dt, s.state.my_latest_block_index,
      by simp [get_block_indexes_for_dates, resolved_end], ?_⟩
    rcases hstart with hsF | ⟨b1, hb1, hsb, _⟩
    · rw [hsF]
      exact le_trans (hlo x0 hx0) (hhi x0 hx0)
    · rw [hsb]
      exact hhi b1 hb1
  | some ed =>
    cases hfe : find_one_best (fun b => decide (ed ≤ b.block_time))
        (fun a b => decide (a.block_time < b.block_time)) s.db.processed_blocks with
    | some b2 =>
      have hmem2 := find_one_best_some hfe
      refine ⟨resolved_start cfg s start_dt, b2.block_index,
        by simp [get_block_indexes_for_dates, resolved_end, hfe], ?_⟩
      rcases hstart with hsF | ⟨b1, hb1, hsb, htime⟩
      · rw [hsF]
        exact hlo b2 hmem2.1
      · cases start_dt with
        | none =>
          have hF : resolved_start cfg s none = cfg.BLOCK_FIRST := rfl
          rw [hF]
          exact hlo b2 hmem2.1
        | some sd =>
          rw [hsb]
          have h1 : b1.block_time ≤ sd := htime sd rfl
          have h2 : ed ≤ b2.block_time := by simpa using hmem2.2
          have h3 : sd ≤ ed := hord sd ed rfl rfl
          exact hmono b1 hb1 b2 hmem2.1 (by omega)
    | none =>
      obtain ⟨bm, hbm⟩ :=
        @find_one_best_isSome (fun _ => true)
          (fun a b => decide (b.block_index < a.block_index)) s.db.processed_blocks x0 hx0 rfl
      have hmemm := find_one_best_some hbm
      have hmax : ∀ b2 ∈ s.db.processed_blocks, b2.block_index ≤ bm.block_index := by
        intro b2 hb2
        have := find_one_best_not_better (by simp) ?_ hbm b2 hb2 rfl
        · simpa using this
        · intro x y z hyz hxy
          simp only [decide_eq_true_eq] at hyz hxy ⊢
          exact hyz.trans hxy
      refine ⟨resolved_start cfg s start_dt, bm.block_index,
        by simp [get_block_indexes_for_dates, resolved_end, hfe, hbm], ?_⟩
      rcases hstart with hsF | ⟨b1, hb1, hsb, _⟩
      · rw [hsF]
        exact le_trans (hlo bm hmemm.1) (le_refl _)
      · rw [hsb]
        exact hmax b1 hb1

/-- Witness for the amended C7: on `s6` with the well-ordered window
(10, 20) the resolved range is monotone. -/
theorem block_range_monotone_amended_witness :
    ∃ sb eb, get_block_indexes_for_dates cfg0 s6 (some 10) (some 20) = some (sb, eb) ∧ sb ≤ eb :=
  block_range_monotone_amended cfg0 s6 (some 10) (some 20)
    (by decide) (by decide) (by decide) (by decide)
    (fun sd ed hsd hed => by cases hsd; cases hed; decide)
